import Mathlib

/-!
Verification development for the embedding-indexed retrieval store of the
Backend-Personal-Digital-assistant repository (src/rag/vectorStore.js).

The repository source holds two versions of the store side by side; we call
them the first variant (the file ending in a module.exports of named
functions) and the second variant (the file headed FIXED and ROBUST
VERSION).  Definitions suffixed 1 embed the first variant, definitions
suffixed 2 embed the second; unsuffixed definitions embed code that is
identical in both.

Modelling conventions:
  - JavaScript numbers are modelled as rationals, except for the first
    variant cosine similarity, which calls Math.sqrt and is therefore
    modelled over the reals (and is the only noncomputable definition).
  - The embedding provider is an oracle of type String to Option (List Rat);
    none models a rejected provider call.
  - A thrown JavaScript error is an Except.error carrying a StoreError.
  - The durable file is the dbFile component of the store state; some data
    models an existing file holding a JSON array of records, none models a
    missing file.  fs.unlinkSync is setting it to none, fs.writeFileSync is
    setting it to some of the serialized collection (JSON round-trips the
    record array losslessly).
  - A JavaScript object used as an open string map is an association list.
    Object property insertion order is preserved, matching JavaScript.
  - Out-of-range indexed reads inside the fixed-dimension dot product of
    the second variant are modelled as 0; the provider contract guarantees
    vectors of the full dimension, and every concrete input used in a
    witness below carries the full 384 entries so that no such read occurs.
-/

/-- Open metadata mapping of a record or chunk.  Only the reserved key
field is ever consulted by the store; the remaining keys are carried
untouched as an association list so that verbatim copying is observable. -/
structure Metadata where
  field : Option String
  rest : List (String × String)
deriving DecidableEq, Repr

/-- The empty metadata object, as in the JavaScript literal with no keys. -/
def emptyMeta : Metadata := ⟨none, []⟩

/-- The metadata object with a single key field set to general. -/
def genMeta : Metadata := ⟨some "general", []⟩

/-- One stored record: identifier, content, embedding vector and metadata.
metadata is an Option because a record parsed from a legacy durable file
can lack the metadata property entirely. -/
structure Record where
  id : String
  content : String
  embedding : List ℚ
  metadata : Option Metadata
deriving DecidableEq, Repr

/-- One input chunk as consumed by buildVectorStore.  The two variants read
different keys from the same chunk objects: the first variant reads id,
content and field, the second reads id, content and metadata.  A falsy
content is modelled as the empty string; a falsy or absent id, field or
metadata is modelled as none. -/
structure Chunk where
  id : Option String
  content : String
  field : Option String
  metadata : Option Metadata
deriving DecidableEq, Repr

/-- The field index: a JavaScript object mapping a field name to the array
of record positions, with object keys kept in insertion order. -/
abbrev FieldIndex := List (String × List Nat)

/-- The mutable state of the VectorStore instance: the record collection,
the derived field index, whether the embedder has been initialized, and
the contents of the durable file (none when the file does not exist). -/
structure Store where
  vectors : List Record
  fieldIndex : FieldIndex
  embedderReady : Bool
  dbFile : Option (List Record)
deriving DecidableEq, Repr

/-- Errors thrown by the store.  typeError models the JavaScript TypeError
raised when the index builder reads the field property of an absent
metadata object. -/
inductive StoreError where
  | notInitialized
  | invalidInput
  | providerFailure
  | emptyInput
  | typeError
deriving DecidableEq, Repr

/-- The embedding provider oracle: for a given text it deterministically
either yields a vector or rejects (none). -/
abbrev EmbedFn := String → Option (List ℚ)

/-- initEmbedder of either variant: acquires the provider pipeline and
marks readiness; idempotent.  Successful acquisition is assumed, since no
claim concerns acquisition failure. -/
def initEmbedder (st : Store) : Store :=
  { st with embedderReady := true }

/-- embedText of the first variant: throws when the embedder is not
initialized, otherwise forwards the text to the provider; a provider
rejection propagates.  No validation of the text is performed. -/
def embedText1 (f : EmbedFn) (ready : Bool) (text : String) :
    Except StoreError (List ℚ) :=
  if ready then
    match f text with
    | none => .error .providerFailure
    | some v => .ok v
  else .error .notInitialized

/-- embedText of the second variant: additionally rejects an empty (falsy)
text with an invalid-input error before calling the provider. -/
def embedText2 (f : EmbedFn) (ready : Bool) (text : String) :
    Except StoreError (List ℚ) :=
  if ready then
    if text = "" then .error .invalidInput
    else
      match f text with
      | none => .error .providerFailure
      | some v => .ok v
  else .error .notInitialized

/-- The fixed embedding dimensionality of the deployed model. -/
def EMBEDDING_DIM : Nat := 384

/-- cosineSimilarity of the second variant: the raw dot product of the
first EMBEDDING_DIM coordinates, with no normalization. -/
def cosineSimilarity2 (a b : List ℚ) : ℚ :=
  ((List.range EMBEDDING_DIM).map (fun i => a.getD i 0 * b.getD i 0)).sum

/-- Accumulated dot product of the first variant loop, which runs over the
indices of the first vector. -/
def dot1 (a b : List ℚ) : ℚ :=
  ((List.range a.length).map (fun i => a.getD i 0 * b.getD i 0)).sum

/-- Accumulated squared norm of the first vector in the first variant
loop. -/
def na1 (a : List ℚ) : ℚ :=
  ((List.range a.length).map (fun i => a.getD i 0 * a.getD i 0)).sum

/-- Accumulated squared norm of the second vector in the first variant
loop; note the loop bound is the length of the first vector. -/
def nb1 (a b : List ℚ) : ℚ :=
  ((List.range a.length).map (fun i => b.getD i 0 * b.getD i 0)).sum

/-- cosineSimilarity of the first variant: dot divided by the product of
the square roots of the squared norms; a zero (falsy) denominator is
replaced by 1, so the result is then the bare dot product. -/
noncomputable def cosineSimilarity1 (a b : List ℚ) : ℝ :=
  if (Real.sqrt (na1 a) * Real.sqrt (nb1 a b) : ℝ) = 0 then
    ((dot1 a b : ℚ) : ℝ)
  else ((dot1 a b : ℚ) : ℝ) / (Real.sqrt (na1 a) * Real.sqrt (nb1 a b))

/-- A search result of the second variant: the record spread together with
its score. -/
structure Scored where
  doc : Record
  score : ℚ
deriving DecidableEq, Repr

/-- A search result of the first variant, whose score is real valued. -/
structure ScoredR where
  doc : Record
  score : ℝ

/-- The comparator b.score - a.score passed to the stable JavaScript sort,
read as a relation: a precedes b when the score of a is at least the score
of b. -/
def scoreGe (a b : Scored) : Prop := b.score ≤ a.score

instance : DecidableRel scoreGe :=
  fun a b => inferInstanceAs (Decidable (b.score ≤ a.score))

instance : IsTotal Scored scoreGe :=
  ⟨fun a b => le_total b.score a.score⟩

instance : IsTrans Scored scoreGe :=
  ⟨fun _ _ _ hab hbc => le_trans hbc hab⟩

/-- The same comparator for the first variant, over real scores. -/
def scoreGeR (a b : ScoredR) : Prop := b.score ≤ a.score

noncomputable instance : DecidableRel scoreGeR :=
  fun a b => Real.decidableLE b.score a.score

/-- The scored candidate list: every record of the collection paired with
its similarity to the query embedding (second variant scoring). -/
def scoredList (qe : List ℚ) (vecs : List Record) : List Scored :=
  vecs.map (fun d => ⟨d, cosineSimilarity2 qe d.embedding⟩)

/-- The scored candidate list of the first variant. -/
noncomputable def scoredList1 (qe : List ℚ) (vecs : List Record) :
    List ScoredR :=
  vecs.map (fun d => ⟨d, cosineSimilarity1 qe d.embedding⟩)

/-- Search options.  Each component is optional, mirroring JavaScript
destructuring defaults: none means the caller did not pass the key and the
per-variant default applies.  fieldFilter is accepted here because a
JavaScript caller may pass it, although neither variant destructures it. -/
structure SearchOpts where
  topK : Option Nat
  minScore : Option ℚ
  fieldFilter : Option String
deriving DecidableEq, Repr

/-- The empty options object, as in a call search(query). -/
def defaultOpts : SearchOpts := ⟨none, none, none⟩

/-- search of the first variant: requires the embedder to be initialized
(throwing otherwise), returns the empty list on an empty store, then
embeds the query and maps, filters by minScore inclusively, sorts stably
by descending score and slices to topK.  Defaults: topK 3, minScore 0.25.
The store state is not mutated. -/
noncomputable def search1 (f : EmbedFn) (st : Store) (query : String)
    (opts : SearchOpts) : Except StoreError (List ScoredR) :=
  if st.embedderReady then
    if st.vectors.isEmpty then .ok []
    else
      match embedText1 f st.embedderReady query with
      | .error e => .error e
      | .ok qe =>
          .ok ((((scoredList1 qe st.vectors).filter
                  (fun v => decide ((opts.minScore.getD (1/4) : ℝ) ≤ v.score))).insertionSort
                scoreGeR).take (opts.topK.getD 3))
  else .error .notInitialized

/-- search of the second variant: returns the empty list on an empty store
before anything else, then triggers initialization itself, embeds the
query and maps, sorts stably by descending score, filters by minScore
inclusively and slices to topK.  Defaults: topK 3, minScore 0.2.  The
returned store reflects the initialization side effect. -/
def search2 (f : EmbedFn) (st : Store) (query : String)
    (opts : SearchOpts) : Store × Except StoreError (List Scored) :=
  if st.vectors.isEmpty then (st, .ok [])
  else
    let st1 := initEmbedder st
    match embedText2 f st1.embedderReady query with
    | .error e => (st1, .error e)
    | .ok qe =>
        (st1, .ok ((((scoredList qe st1.vectors).insertionSort scoreGe).filter
            (fun d => opts.minScore.getD (1/5) ≤ d.score)).take
          (opts.topK.getD 3)))

/-- Field key extraction used by the index builder of the first variant:
metadata.field with no default.  An absent field property is the undefined
value, which JavaScript coerces to the property key "undefined"; an absent
metadata object makes the property read throw, modelled as none. -/
def fieldOf1 (r : Record) : Option String :=
  r.metadata.map (fun m => m.field.getD "undefined")

/-- Field key extraction used by the index builder of the second variant:
metadata.field defaulted to general by the falsy-or idiom.  An absent
metadata object makes the property read throw, modelled as none. -/
def fieldOf2 (r : Record) : Option String :=
  r.metadata.map (fun m => m.field.getD "general")

/-- Appends position i under key fname, creating the key at the end of the
object when absent, as JavaScript property assignment does. -/
def addIdx (fi : FieldIndex) (fname : String) (i : Nat) : FieldIndex :=
  match fi with
  | [] => [(fname, [i])]
  | (g, l) :: rest =>
      if g = fname then (g, l ++ [i]) :: rest
      else (g, l) :: addIdx rest fname i

/-- The index-building loop shared by both buildIndex variants, walking the
record collection with its position counter and a field extractor; none
models the TypeError thrown on a record without metadata. -/
def buildIndexGo (fo : Record → Option String) :
    List Record → Nat → FieldIndex → Option FieldIndex
  | [], _, fi => some fi
  | v :: rest, i, fi =>
      match fo v with
      | none => none
      | some fn => buildIndexGo fo rest (i + 1) (addIdx fi fn i)

/-- buildIndex of the first variant. -/
def buildIndex1 (vecs : List Record) : Option FieldIndex :=
  buildIndexGo fieldOf1 vecs 0 []

/-- buildIndex of the second variant. -/
def buildIndex2 (vecs : List Record) : Option FieldIndex :=
  buildIndexGo fieldOf2 vecs 0 []

/-- Property lookup on the field index object. -/
def lookupIdx (fi : FieldIndex) (fname : String) : Option (List Nat) :=
  (fi.find? (fun p => p.1 = fname)).map (fun p => p.2)

/-- The record constructed by the second variant build loop for the chunk
at position i among the surviving chunks: default id chunk_i, the content,
the embedding returned by the provider, and the metadata of the chunk
carried verbatim, defaulted to the empty object. -/
def buildRecordAt (f : EmbedFn) (p : Nat × Chunk) : Record :=
  ⟨p.2.id.getD ("chunk_" ++ toString p.1), p.2.content,
    (f p.2.content).getD [], some (p.2.metadata.getD emptyMeta)⟩

/-- The embedding loop of the second variant buildVectorStore: chunks
without content are skipped, surviving chunks are embedded in order and
pushed; the first embedding error aborts the loop, leaving the records
accumulated so far. -/
def buildLoop (f : EmbedFn) :
    List Chunk → List Record → List Record × Option StoreError
  | [], acc => (acc, none)
  | c :: rest, acc =>
      if c.content = "" then buildLoop f rest acc
      else
        match embedText2 f true c.content with
        | .error e => (acc, some e)
        | .ok emb =>
            buildLoop f rest
              (acc ++ [⟨c.id.getD ("chunk_" ++ toString acc.length),
                c.content, emb, some (c.metadata.getD emptyMeta)⟩])

/-- buildVectorStore of the second variant: rejects an empty chunk array,
initializes the embedder, resets the record collection, runs the embedding
loop, then rebuilds the index and persists.  On an embedding error the
records embedded so far remain in memory while the index and the durable file
are left untouched. -/
def buildVectorStore2 (f : EmbedFn) (st : Store) (chunks : List Chunk) :
    Store × Except StoreError Unit :=
  if chunks.isEmpty then (st, .error .emptyInput)
  else
    match buildLoop f chunks [] with
    | (vecs, some e) => (⟨vecs, st.fieldIndex, true, st.dbFile⟩, .error e)
    | (vecs, none) =>
        match buildIndex2 vecs with
        | none => (⟨vecs, st.fieldIndex, true, st.dbFile⟩, .error .typeError)
        | some idx => (⟨vecs, idx, true, some vecs⟩, .ok ())

/-- saveToDisk of either variant: overwrites the durable file with the
serialized record collection. -/
def saveToDisk (st : Store) : Store :=
  { st with dbFile := some st.vectors }

/-- The legacy normalization applied by loadFromDisk of the first variant:
an absent metadata object becomes the object with field general. -/
def normalizeRecord (r : Record) : Record :=
  { r with metadata := some (r.metadata.getD genMeta) }

/-- loadFromDisk of the first variant: reports false when the file is
missing or holds an empty array, otherwise replaces the collection with
the normalized file contents and rebuilds the index. -/
def loadFromDisk1 (st : Store) : Store × Except StoreError Bool :=
  match st.dbFile with
  | none => (st, .ok false)
  | some data =>
      if data.isEmpty then (st, .ok false)
      else
        let vecs := data.map normalizeRecord
        match buildIndex1 vecs with
        | none => ({ st with vectors := vecs }, .error .typeError)
        | some idx =>
            ({ st with vectors := vecs, fieldIndex := idx }, .ok true)

/-- loadFromDisk of the second variant: reports false when the file is
missing, otherwise replaces the collection with the file contents verbatim
(no normalization, no emptiness check) and rebuilds the index; the index
rebuild throws on a record without metadata, after the collection has
already been replaced. -/
def loadFromDisk2 (st : Store) : Store × Except StoreError Bool :=
  match st.dbFile with
  | none => (st, .ok false)
  | some data =>
      match buildIndex2 data with
      | none => ({ st with vectors := data }, .error .typeError)
      | some idx =>
          ({ st with vectors := data, fieldIndex := idx }, .ok true)

/-- clear of either variant: empties the collection and the index and
removes the durable file; the embedder field is untouched. -/
def clear (st : Store) : Store :=
  ⟨[], [], st.embedderReady, none⟩

/-- Pairs every element of the list with its position, starting at n. -/
def idxFrom (n : Nat) : List α → List (Nat × α)
  | [] => []
  | a :: t => (n, a) :: idxFrom (n + 1) t

/-- The field name of a record as the specification reads it: the field
key of the metadata, defaulting to general when the key or the whole
metadata object is absent. -/
def specFieldName (r : Record) : String :=
  (r.metadata.getD emptyMeta).field.getD "general"

/-- The positions, in order, of the records whose specification field name
equals fname; the list the specification demands under fieldIndex fname. -/
def specPositions (vecs : List Record) (fname : String) : List Nat :=
  ((idxFrom 0 vecs).filter (fun p => specFieldName p.2 = fname)).map
    (fun p => p.1)

/-- The positions, starting at counter i, of the records the index-builder
loop files under key g. -/
def goPositions (fo : Record → Option String) (vecs : List Record) (i : Nat)
    (g : String) : List Nat :=
  ((idxFrom i vecs).filter (fun p => fo p.2 = some g)).map (fun p => p.1)

/-- Appends freshly filed positions to an existing lookup result; none
keeps meaning the key is absent. -/
def mergePos (o : Option (List Nat)) (ns : List Nat) : Option (List Nat) :=
  match o, ns with
  | none, [] => none
  | none, ns => some ns
  | some l, ns => some (l ++ ns)

/-- The search result demanded by the specification, written in its own
order of operations: keep the qualifying candidates (score at least
minScore), stable-sort them by descending score, truncate to topK.  The
claim theorem below proves the sort-filter-slice pipeline of the code
equal to this filter-sort-slice reading. -/
def searchTopKSpec (qe : List ℚ) (vecs : List Record) (topK : Nat)
    (minScore : ℚ) : List Scored :=
  (((scoredList qe vecs).filter
      (fun d => minScore ≤ d.score)).insertionSort scoreGe).take topK

/-! Helper lemmas. -/

theorem isEmpty_eq_false_of_ne_nil {α : Type} {l : List α} (h : l ≠ []) :
    l.isEmpty = false := by
  cases l with
  | nil => exact absurd rfl h
  | cons a t => rfl

theorem filter_orderedInsert {α : Type} (r : α → α → Prop) [DecidableRel r]
    [IsTrans α r] (p : α → Bool) (a : α) :
    ∀ l : List α, l.Sorted r →
      (List.orderedInsert r a l).filter p =
        if p a then List.orderedInsert r a (l.filter p) else l.filter p := by
  intro l
  induction l with
  | nil =>
      intro _
      by_cases hpa : p a
      · rw [if_pos hpa]
        simp [List.orderedInsert, List.filter_cons_of_pos hpa]
      · rw [if_neg hpa]
        simp [List.orderedInsert, List.filter_cons_of_neg hpa]
  | cons b t ih =>
      intro hs
      have iht := ih hs.of_cons
      by_cases hab : r a b
      · rw [List.orderedInsert, if_pos hab]
        by_cases hpa : p a
        · rw [if_pos hpa, List.filter_cons_of_pos hpa]
          cases hf : (b :: t).filter p with
          | nil => rw [List.orderedInsert]
          | cons c cs =>
              have hc : c ∈ b :: t :=
                List.mem_of_mem_filter (hf ▸ List.mem_cons_self c cs)
              have hac : r a c := by
                rcases List.mem_cons.1 hc with hcb | hct
                · exact hcb ▸ hab
                · exact Trans.trans hab (List.rel_of_sorted_cons hs c hct)
              rw [List.orderedInsert, if_pos hac]
        · rw [if_neg hpa, List.filter_cons_of_neg hpa]
      · rw [List.orderedInsert, if_neg hab]
        by_cases hpa : p a
        · rw [if_pos hpa] at iht ⊢
          by_cases hpb : p b
          · rw [List.filter_cons_of_pos hpb, List.filter_cons_of_pos hpb,
              iht, List.orderedInsert, if_neg hab]
          · rw [List.filter_cons_of_neg hpb, List.filter_cons_of_neg hpb,
              iht]
        · rw [if_neg hpa] at iht ⊢
          by_cases hpb : p b
          · rw [List.filter_cons_of_pos hpb, List.filter_cons_of_pos hpb,
              iht]
          · rw [List.filter_cons_of_neg hpb, List.filter_cons_of_neg hpb,
              iht]

theorem filter_insertionSort {α : Type} (r : α → α → Prop) [DecidableRel r]
    [IsTotal α r] [IsTrans α r] (p : α → Bool) :
    ∀ l : List α,
      (List.insertionSort r l).filter p = List.insertionSort r (l.filter p) := by
  intro l
  induction l with
  | nil => rfl
  | cons a t ih =>
      rw [List.insertionSort,
        filter_orderedInsert r p a _ (List.sorted_insertionSort r t), ih]
      by_cases hpa : p a
      · rw [if_pos hpa, List.filter_cons_of_pos hpa, List.insertionSort]
      · rw [if_neg hpa, List.filter_cons_of_neg hpa]

theorem mergePos_nil (o : Option (List Nat)) : mergePos o [] = o := by
  cases o with
  | none => rfl
  | some l => simp [mergePos]

theorem mergePos_none (ns : List Nat) :
    mergePos none ns = if ns = [] then none else some ns := by
  cases ns <;> rfl

theorem lookupIdx_nil (g : String) : lookupIdx [] g = none := rfl

theorem lookupIdx_cons_self (k : String) (l : List Nat)
    (rest : FieldIndex) : lookupIdx ((k, l) :: rest) k = some l := by
  simp [lookupIdx, List.find?]

theorem lookupIdx_cons_ne {g k : String} (h : ¬g = k) (l : List Nat)
    (rest : FieldIndex) :
    lookupIdx ((k, l) :: rest) g = lookupIdx rest g := by
  have hk : ¬k = g := fun e => h e.symm
  simp [lookupIdx, List.find?, hk]

theorem lookupIdx_addIdx (fi : FieldIndex) (fn : String) (i : Nat)
    (g : String) :
    lookupIdx (addIdx fi fn i) g =
      if g = fn then some (((lookupIdx fi g).getD []) ++ [i])
      else lookupIdx fi g := by
  induction fi with
  | nil =>
      rw [show addIdx [] fn i = [(fn, [i])] from rfl]
      by_cases hg : g = fn
      · subst hg
        rw [if_pos rfl, lookupIdx_cons_self, lookupIdx_nil]
        rfl
      · rw [if_neg hg, lookupIdx_cons_ne hg, lookupIdx_nil]
  | cons e rest ih =>
      obtain ⟨k, l⟩ := e
      by_cases hk : k = fn
      · subst hk
        rw [show addIdx ((k, l) :: rest) k i = (k, l ++ [i]) :: rest from by
          rw [addIdx, if_pos rfl]]
        by_cases hg : g = k
        · subst hg
          rw [if_pos rfl, lookupIdx_cons_self, lookupIdx_cons_self]
          rfl
        · rw [if_neg hg, lookupIdx_cons_ne hg (l ++ [i]) rest,
            lookupIdx_cons_ne hg l rest]
  
      · rw [show addIdx ((k, l) :: rest) fn i = (k, l) :: addIdx rest fn i from
          by rw [addIdx, if_neg hk]]
        by_cases hg : g = k
        · subst hg
          have hgfn : ¬g = fn := hk
          rw [if_neg hgfn, lookupIdx_cons_self, lookupIdx_cons_self]
        · rw [lookupIdx_cons_ne hg l (addIdx rest fn i),
            lookupIdx_cons_ne hg l rest, ih]

theorem goPositions_nil (fo : Record → Option String) (i : Nat)
    (g : String) : goPositions fo [] i g = [] := rfl

theorem goPositions_cons (fo : Record → Option String) (v : Record)
    (rest : List Record) (i : Nat) (g : String) :
    goPositions fo (v :: rest) i g =
      if fo v = some g then i :: goPositions fo rest (i + 1) g
      else goPositions fo rest (i + 1) g := by
  by_cases h : fo v = some g
  · rw [if_pos h]
    simp only [goPositions, idxFrom]
    rw [List.filter_cons_of_pos (by simpa using h), List.map_cons]
  · rw [if_neg h]
    simp only [goPositions, idxFrom]
    rw [List.filter_cons_of_neg (by simpa using h)]

theorem buildIndexGo_some (fo : Record → Option String) :
    ∀ (vecs : List Record) (i : Nat) (fi : FieldIndex),
      (∀ r ∈ vecs, (fo r).isSome) →
      ∃ fi2, buildIndexGo fo vecs i fi = some fi2 := by
  intro vecs
  induction vecs with
  | nil => exact fun i fi _ => ⟨fi, rfl⟩
  | cons v rest ih =>
      intro i fi h
      obtain ⟨fn, hfn⟩ := Option.isSome_iff_exists.1
        (h v (List.mem_cons_self v rest))
      rw [buildIndexGo, hfn]
      exact ih (i + 1) (addIdx fi fn i)
        (fun r hr => h r (List.mem_cons_of_mem v hr))

theorem buildIndexGo_lookup (fo : Record → Option String) :
    ∀ (vecs : List Record) (i : Nat) (fi0 fi2 : FieldIndex),
      buildIndexGo fo vecs i fi0 = some fi2 →
      ∀ g, lookupIdx fi2 g =
        mergePos (lookupIdx fi0 g) (goPositions fo vecs i g) := by
  intro vecs
  induction vecs with
  | nil =>
      intro i fi0 fi2 h g
      rw [buildIndexGo] at h
      cases h
      rw [goPositions_nil, mergePos_nil]
  | cons v rest ih =>
      intro i fi0 fi2 h g
      rw [buildIndexGo] at h
      cases hfo : fo v with
      | none => rw [hfo] at h; cases h
      | some fn =>
          rw [hfo] at h
          have hrec := ih (i + 1) (addIdx fi0 fn i) fi2 h g
          rw [goPositions_cons, hfo, hrec, lookupIdx_addIdx]
          by_cases hg : g = fn
          · subst hg
            rw [if_pos rfl, if_pos rfl]
            cases hl : lookupIdx fi0 g with
            | none => simp [mergePos]
            | some l => simp [mergePos]
          · rw [if_neg hg, if_neg (fun e : some fn = some g =>
              hg (Option.some.inj e).symm)]

theorem fieldOf2_of_isSome {r : Record} (h : r.metadata.isSome) :
    fieldOf2 r = some (specFieldName r) := by
  obtain ⟨m, hm⟩ := Option.isSome_iff_exists.1 h
  simp [fieldOf2, specFieldName, hm]

theorem goPositions_fieldOf2_spec :
    ∀ (vecs : List Record) (i : Nat) (g : String),
      (∀ r ∈ vecs, r.metadata.isSome) →
      goPositions fieldOf2 vecs i g =
        ((idxFrom i vecs).filter (fun p => specFieldName p.2 = g)).map
          (fun p => p.1) := by
  intro vecs
  induction vecs with
  | nil => intro i g _; rfl
  | cons v rest ih =>
      intro i g h
      have hv := fieldOf2_of_isSome (h v (List.mem_cons_self v rest))
      have ihr := ih (i + 1) g (fun r hr => h r (List.mem_cons_of_mem v hr))
      rw [goPositions_cons, hv]
      by_cases hg : specFieldName v = g
      · rw [if_pos (by rw [hg]),
          show idxFrom i (v :: rest) = (i, v) :: idxFrom (i + 1) rest from rfl,
          List.filter_cons_of_pos (by simpa using hg), List.map_cons, ihr]
      · rw [if_neg (fun e => hg (Option.some.inj e)),
          show idxFrom i (v :: rest) = (i, v) :: idxFrom (i + 1) rest from rfl,
          List.filter_cons_of_neg (by simpa using hg), ihr]

theorem buildIndex2_lookup (vecs : List Record)
    (h : ∀ r ∈ vecs, r.metadata.isSome) (g : String) :
    (buildIndex2 vecs).map (fun fi => lookupIdx fi g) =
      some (if specPositions vecs g = [] then none
        else some (specPositions vecs g)) := by
  obtain ⟨fi2, hfi⟩ := buildIndexGo_some fieldOf2 vecs 0 []
    (fun r hr => by rw [fieldOf2_of_isSome (h r hr)]; rfl)
  rw [show buildIndex2 vecs = buildIndexGo fieldOf2 vecs 0 [] from rfl, hfi,
    Option.map_some']
  rw [buildIndexGo_lookup fieldOf2 vecs 0 [] fi2 hfi g, lookupIdx_nil,
    mergePos_none, goPositions_fieldOf2_spec vecs 0 g h]
  rfl

theorem buildIndex2_isSome (vecs : List Record)
    (h : ∀ r ∈ vecs, r.metadata.isSome) :
    ∃ fi2, buildIndex2 vecs = some fi2 :=
  buildIndexGo_some fieldOf2 vecs 0 []
    (fun r hr => by rw [fieldOf2_of_isSome (h r hr)]; rfl)

theorem buildIndex1_isSome (vecs : List Record)
    (h : ∀ r ∈ vecs, r.metadata.isSome) :
    ∃ fi2, buildIndex1 vecs = some fi2 :=
  buildIndexGo_some fieldOf1 vecs 0 []
    (fun r hr => by
      obtain ⟨m, hm⟩ := Option.isSome_iff_exists.1 (h r hr)
      simp [fieldOf1, hm])

theorem buildLoop_cons_skip (f : EmbedFn) (c : Chunk) (rest : List Chunk)
    (acc : List Record) (hc : c.content = "") :
    buildLoop f (c :: rest) acc = buildLoop f rest acc := by
  rw [buildLoop, if_pos hc]

theorem buildLoop_cons_ok (f : EmbedFn) (c : Chunk) (rest : List Chunk)
    (acc : List Record) (emb : List ℚ) (hc : ¬c.content = "")
    (he : embedText2 f true c.content = .ok emb) :
    buildLoop f (c :: rest) acc =
      buildLoop f rest
        (acc ++ [⟨c.id.getD ("chunk_" ++ toString acc.length), c.content,
          emb, some (c.metadata.getD emptyMeta)⟩]) := by
  rw [buildLoop, if_neg hc, he]

theorem buildLoop_cons_err (f : EmbedFn) (c : Chunk) (rest : List Chunk)
    (acc : List Record) (e : StoreError) (hc : ¬c.content = "")
    (he : embedText2 f true c.content = .error e) :
    buildLoop f (c :: rest) acc = (acc, some e) := by
  rw [buildLoop, if_neg hc, he]

theorem buildLoop_ok (f : EmbedFn) :
    ∀ (chunks : List Chunk) (acc : List Record),
      (∀ c ∈ chunks, c.content ≠ "" → (f c.content).isSome) →
      buildLoop f chunks acc =
        (acc ++ ((idxFrom acc.length (chunks.filter
            (fun c => !(c.content = "")))).map (buildRecordAt f)), none) := by
  intro chunks
  induction chunks with
  | nil => intro acc _; simp [buildLoop, idxFrom]
  | cons c rest ih =>
      intro acc h
      by_cases hc : c.content = ""
      · rw [buildLoop_cons_skip f c rest acc hc,
          List.filter_cons_of_neg (by simpa using hc),
          ih acc (fun d hd => h d (List.mem_cons_of_mem c hd))]
      · obtain ⟨emb, hemb⟩ := Option.isSome_iff_exists.1
          (h c (List.mem_cons_self c rest) hc)
        have he : embedText2 f true c.content = .ok emb := by
          rw [embedText2, if_pos rfl, if_neg hc, hemb]
        rw [buildLoop_cons_ok f c rest acc emb hc he,
          ih _ (fun d hd => h d (List.mem_cons_of_mem c hd)),
          List.filter_cons_of_pos (by simpa using hc)]
        simp [idxFrom, buildRecordAt, hemb]

theorem sum_nonneg_of_nonneg :
    ∀ l : List ℚ, (∀ x ∈ l, 0 ≤ x) → 0 ≤ l.sum := by
  intro l
  induction l with
  | nil => intro _; simp
  | cons a t ih =>
      intro h
      rw [List.sum_cons]
      have ha := h a (List.mem_cons_self a t)
      have ht := ih (fun x hx => h x (List.mem_cons_of_mem a hx))
      linarith

theorem sum_zero_all_zero :
    ∀ l : List ℚ, (∀ x ∈ l, 0 ≤ x) → l.sum = 0 → ∀ x ∈ l, x = 0 := by
  intro l
  induction l with
  | nil => intro _ _ x hx; cases hx
  | cons a t ih =>
      intro hpos hsum x hx
      rw [List.sum_cons] at hsum
      have ha := hpos a (List.mem_cons_self a t)
      have htp := fun y (hy : y ∈ t) => hpos y (List.mem_cons_of_mem a hy)
      have ht := sum_nonneg_of_nonneg t htp
      rcases List.mem_cons.1 hx with he | hm
      · subst he; linarith
      · exact ih htp (by linarith) x hm

theorem na1_nonneg (a : List ℚ) : 0 ≤ na1 a := by
  apply sum_nonneg_of_nonneg
  intro x hx
  obtain ⟨j, _, rfl⟩ := List.mem_map.1 hx
  exact mul_self_nonneg _

theorem na1_getD_eq_zero {a : List ℚ} (h : na1 a = 0) :
    ∀ i, a.getD i 0 = 0 := by
  intro i
  by_cases hi : i < a.length
  · have hmem : a.getD i 0 * a.getD i 0 ∈
        (List.range a.length).map (fun j => a.getD j 0 * a.getD j 0) :=
      List.mem_map_of_mem _ (List.mem_range.2 hi)
    have hz := sum_zero_all_zero _
      (fun x hx => by
        obtain ⟨j, _, rfl⟩ := List.mem_map.1 hx
        exact mul_self_nonneg _) h _ hmem
    exact mul_self_eq_zero.1 hz
  · exact List.getD_eq_default a 0 (Nat.le_of_not_lt hi)

theorem dot1_eq_zero_left {a b : List ℚ} (h : na1 a = 0) : dot1 a b = 0 := by
  apply List.sum_eq_zero
  intro x hx
  obtain ⟨j, _, rfl⟩ := List.mem_map.1 hx
  rw [na1_getD_eq_zero h j, zero_mul]

theorem dot1_eq_zero_right {a b : List ℚ} (h : na1 b = 0) : dot1 a b = 0 := by
  apply List.sum_eq_zero
  intro x hx
  obtain ⟨j, _, rfl⟩ := List.mem_map.1 hx
  rw [na1_getD_eq_zero h j, mul_zero]

theorem nb1_eq_na1 {a b : List ℚ} (hlen : a.length = b.length) :
    nb1 a b = na1 b := by
  rw [nb1, na1, hlen]

theorem search2_ok (f : EmbedFn) (st : Store) (q : String)
    (opts : SearchOpts) (qe : List ℚ) (hne : st.vectors ≠ [])
    (hq : ¬q = "") (hf : f q = some qe) :
    search2 f st q opts =
      ({ st with embedderReady := true },
        .ok ((((scoredList qe st.vectors).insertionSort scoreGe).filter
            (fun d => opts.minScore.getD (1/5) ≤ d.score)).take
          (opts.topK.getD 3))) := by
  have hemp : st.vectors.isEmpty = false := isEmpty_eq_false_of_ne_nil hne
  have he : embedText2 f (initEmbedder st).embedderReady q = .ok qe := by
    rw [show (initEmbedder st).embedderReady = true from rfl, embedText2,
      if_pos rfl, if_neg hq, hf]
  rw [search2, if_neg (by rw [hemp]; exact Bool.false_ne_true)]
  show (match embedText2 f (initEmbedder st).embedderReady q with
    | Except.error e => (initEmbedder st, Except.error e)
    | Except.ok qe =>
        (initEmbedder st,
          Except.ok ((((scoredList qe (initEmbedder st).vectors).insertionSort
              scoreGe).filter
            (fun d : Scored => opts.minScore.getD (1/5) ≤ d.score)).take
          (opts.topK.getD 3)))) = _
  rw [he]
  rfl

theorem getD_replicate_zero : ∀ n i : Nat,
    (List.replicate n (0:ℚ)).getD i 0 = 0 := by
  intro n
  induction n with
  | zero => intro i; rfl
  | succ m ih =>
      intro i
      cases i with
      | zero => rfl
      | succ j => simp only [List.replicate, List.getD_cons_succ]; exact ih j

theorem cosineSimilarity2_single (x y : ℚ) :
    cosineSimilarity2 (x :: List.replicate 383 0)
      (y :: List.replicate 383 0) = x * y := by
  rw [cosineSimilarity2, show EMBEDDING_DIM = 383 + 1 from rfl,
    List.range_succ_eq_map, List.map_cons, List.sum_cons]
  have hz : (((List.range 383).map Nat.succ).map
      (fun i => (x :: List.replicate 383 (0:ℚ)).getD i 0 *
        (y :: List.replicate 383 (0:ℚ)).getD i 0)).sum = 0 := by
    apply List.sum_eq_zero
    intro z hz
    obtain ⟨i, hi, rfl⟩ := List.mem_map.1 hz
    obtain ⟨j, hj, rfl⟩ := List.mem_map.1 hi
    simp only [List.getD_cons_succ, getD_replicate_zero, mul_zero]
  rw [hz]
  simp only [List.getD_cons_zero, add_zero]

theorem search2_err (f : EmbedFn) (st : Store) (q : String)
    (opts : SearchOpts) (e : StoreError) (hne : st.vectors ≠ [])
    (he : embedText2 f true q = .error e) :
    search2 f st q opts = (initEmbedder st, .error e) := by
  have hemp : st.vectors.isEmpty = false := isEmpty_eq_false_of_ne_nil hne
  rw [search2, if_neg (by rw [hemp]; exact Bool.false_ne_true)]
  show (match embedText2 f (initEmbedder st).embedderReady q with
    | Except.error e => (initEmbedder st, Except.error e)
    | Except.ok qe =>
        (initEmbedder st,
          Except.ok ((((scoredList qe (initEmbedder st).vectors).insertionSort
              scoreGe).filter
            (fun d : Scored => opts.minScore.getD (1/5) ≤ d.score)).take
          (opts.topK.getD 3)))) = _
  rw [show (initEmbedder st).embedderReady = true from rfl, he]

theorem embedText2_ready_no_notInit (f : EmbedFn) (t : String)
    (e : StoreError) (h : embedText2 f true t = .error e) :
    e ≠ StoreError.notInitialized := by
  rw [embedText2, if_pos rfl] at h
  by_cases ht : t = ""
  · rw [if_pos ht] at h
    cases h
    intro hc
    cases hc
  · rw [if_neg ht] at h
    cases hf : f t with
    | none =>
        rw [hf] at h
        cases h
        intro hc
        cases hc
    | some v => rw [hf] at h; cases h

theorem buildVectorStore2_ok (f : EmbedFn) (st : Store)
    (chunks : List Chunk) (vecs : List Record) (fi2 : FieldIndex)
    (hne : chunks ≠ [])
    (hloop : buildLoop f chunks [] = (vecs, none))
    (hfi : buildIndex2 vecs = some fi2) :
    buildVectorStore2 f st chunks = (⟨vecs, fi2, true, some vecs⟩, .ok ()) := by
  have hemp : chunks.isEmpty = false := isEmpty_eq_false_of_ne_nil hne
  rw [buildVectorStore2, if_neg (by rw [hemp]; exact Bool.false_ne_true),
    hloop]
  show (match buildIndex2 vecs with
    | none => ((⟨vecs, st.fieldIndex, true, st.dbFile⟩ : Store),
        Except.error StoreError.typeError)
    | some idx => ((⟨vecs, idx, true, some vecs⟩ : Store),
        Except.ok ())) = _
  rw [hfi]

/-! Claim theorems, witnesses and counterexamples. -/

/-- C1 (amended): for every store state and every query, search of the
second (current) variant returns exactly the topK highest-scoring
candidates whose score is greater than or EQUAL to minScore (defaults:
topK = 3, minScore 0.2 here and 0.25 in the first variant), in descending
score order, ties broken by original insertion order.  Formally, the
sort-filter-slice pipeline of the code equals the filter-first
specification reading searchTopKSpec, whose stable insertion sort realizes
descending order with ties in insertion order.  Both variants compare with
score greater than or equal, not strictly greater as the claim states. -/
theorem c1_search_topk_inclusive (f : EmbedFn) (st : Store) (q : String)
    (opts : SearchOpts) (qe : List ℚ) (hne : st.vectors ≠ [])
    (hq : ¬q = "") (hf : f q = some qe) :
    (search2 f st q opts).2 =
      Except.ok (searchTopKSpec qe st.vectors (opts.topK.getD 3)
        (opts.minScore.getD (1/5))) := by
  rw [search2_ok f st q opts qe hne hq hf, searchTopKSpec,
    ← filter_insertionSort scoreGe _ (scoredList qe st.vectors)]

/-- Witness for C1 at a concrete one-record store. -/
theorem c1_search_topk_inclusive_witness :
    (([⟨"a", "x", [], some genMeta⟩] : List Record) ≠ []) ∧
    ¬("hello" = "") ∧
    ((fun _ => some ([] : List ℚ)) : EmbedFn) "hello" = some [] ∧
    (search2 (fun _ => some ([] : List ℚ))
        ⟨[⟨"a", "x", [], some genMeta⟩], [("general", [0])], true, none⟩
        "hello" defaultOpts).2 =
      Except.ok (searchTopKSpec [] [⟨"a", "x", [], some genMeta⟩]
        (defaultOpts.topK.getD 3) (defaultOpts.minScore.getD (1/5))) :=
  ⟨by decide, by decide, rfl,
    c1_search_topk_inclusive _ _ _ _ _ (List.cons_ne_nil _ _)
      (by decide) rfl⟩

/-- Counterexample to C1 as frozen: with the default minScore 0.2 of the
second variant, a record whose similarity is exactly 0.2 is returned, so
the threshold is inclusive, not strictly greater.  Under the claim the
result at this input would be the empty list. -/
theorem c1_strict_threshold_counterexample :
    (search2 (fun _ => some ((1:ℚ) :: List.replicate 383 0))
        ⟨[⟨"a", "x", (1/5 : ℚ) :: List.replicate 383 0, some genMeta⟩],
          [("general", [0])], true, none⟩ "hello" defaultOpts).2 =
      Except.ok [⟨⟨"a", "x", (1/5 : ℚ) :: List.replicate 383 0, some genMeta⟩,
        1/5⟩] ∧
    ¬((1/5 : ℚ) > defaultOpts.minScore.getD (1/5)) ∧
    Except.ok [⟨⟨"a", "x", (1/5 : ℚ) :: List.replicate 383 0, some genMeta⟩,
        (1/5 : ℚ)⟩] ≠
      (Except.ok [] : Except StoreError (List Scored)) := by
  refine ⟨?_, by norm_num [defaultOpts], by intro h; cases h⟩
  rw [search2_ok _ _ _ _ ((1:ℚ) :: List.replicate 383 0)
    (List.cons_ne_nil _ _) (by decide) rfl]
  show Except.ok _ = _
  rw [show scoredList ((1:ℚ) :: List.replicate 383 0)
      [⟨"a", "x", (1/5 : ℚ) :: List.replicate 383 0, some genMeta⟩] =
    [⟨⟨"a", "x", (1/5 : ℚ) :: List.replicate 383 0, some genMeta⟩, 1/5⟩] from by
      simp only [scoredList, List.map_cons, List.map_nil,
        cosineSimilarity2_single]
      norm_num]
  rw [show List.insertionSort scoreGe
      [(⟨⟨"a", "x", (1/5 : ℚ) :: List.replicate 383 0, some genMeta⟩,
        1/5⟩ : Scored)] =
    [⟨⟨"a", "x", (1/5 : ℚ) :: List.replicate 383 0, some genMeta⟩, 1/5⟩] from
      rfl]
  rw [List.filter_cons_of_pos (by
    simp only [defaultOpts, Option.getD_none, decide_eq_true_eq]
    norm_num)]
  rfl

/-- C3 (amended): neither variant implements the fieldFilter option; a
caller-supplied fieldFilter is ignored by destructuring, so the results
are identical to a search without it and returned records may carry any
metadata field.  Stated for the second (current) variant. -/
theorem c3_fieldFilter_ignored (f : EmbedFn) (st : Store) (q : String)
    (k : Option Nat) (m : Option ℚ) (ff : String) :
    search2 f st q ⟨k, m, some ff⟩ = search2 f st q ⟨k, m, none⟩ := rfl

/-- Counterexample to C3 as frozen: a search called with fieldFilter set
to hobbies returns a record whose metadata field is education. -/
theorem c3_fieldFilter_counterexample :
    (search2 (fun _ => some ((1:ℚ) :: List.replicate 383 0))
        ⟨[⟨"b", "cs", (1:ℚ) :: List.replicate 383 0,
            some ⟨some "education", []⟩⟩],
          [("education", [0])], true, none⟩ "query"
        ⟨none, none, some "hobbies"⟩).2 =
      Except.ok [⟨⟨"b", "cs", (1:ℚ) :: List.replicate 383 0,
        some ⟨some "education", []⟩⟩, 1⟩] ∧
    ((⟨some "education", []⟩ : Metadata).field ≠ some "hobbies") := by
  refine ⟨?_, by decide⟩
  rw [search2_ok _ _ _ _ ((1:ℚ) :: List.replicate 383 0)
    (List.cons_ne_nil _ _) (by decide) rfl]
  show Except.ok _ = _
  rw [show scoredList ((1:ℚ) :: List.replicate 383 0)
      [⟨"b", "cs", (1:ℚ) :: List.replicate 383 0,
        some ⟨some "education", []⟩⟩] =
    [⟨⟨"b", "cs", (1:ℚ) :: List.replicate 383 0,
      some ⟨some "education", []⟩⟩, 1⟩] from by
      simp only [scoredList, List.map_cons, List.map_nil,
        cosineSimilarity2_single]
      norm_num]
  rw [show List.insertionSort scoreGe
      [(⟨⟨"b", "cs", (1:ℚ) :: List.replicate 383 0,
        some ⟨some "education", []⟩⟩, 1⟩ : Scored)] =
    [⟨⟨"b", "cs", (1:ℚ) :: List.replicate 383 0,
      some ⟨some "education", []⟩⟩, 1⟩] from rfl]
  rw [List.filter_cons_of_pos (by
    simp only [Option.getD_none, decide_eq_true_eq]
    norm_num)]
  rfl

/-- C5 (amended): search on a store with zero records returns the empty
list without error and without consulting the provider.  In the second
variant this holds unconditionally (the empty check precedes everything
and the state is returned untouched); in the first variant it holds
provided the embedder is initialized, because that variant checks the
embedder before the empty-store check. -/
theorem c5_empty_store_safety :
    (∀ (f : EmbedFn) (st : Store) (q : String) (opts : SearchOpts),
        st.vectors = [] → search2 f st q opts = (st, Except.ok [])) ∧
    (∀ (f : EmbedFn) (st : Store) (q : String) (opts : SearchOpts),
        st.vectors = [] → st.embedderReady = true →
        search1 f st q opts = Except.ok []) := by
  constructor
  · intro f st q opts h
    rw [search2, if_pos (by rw [h]; rfl)]
  · intro f st q opts h hr
    rw [search1, if_pos hr, if_pos (by rw [h]; rfl)]

/-- Witness for C5 on concrete empty stores of both variants. -/
theorem c5_empty_store_safety_witness :
    ((⟨[], [], true, none⟩ : Store).vectors = []) ∧
    ((⟨[], [], true, none⟩ : Store).embedderReady = true) ∧
    search2 (fun _ => some []) ⟨[], [], true, none⟩ "q" defaultOpts =
      (⟨[], [], true, none⟩, Except.ok []) ∧
    search1 (fun _ => some []) ⟨[], [], true, none⟩ "q" defaultOpts =
      Except.ok [] :=
  ⟨rfl, rfl, c5_empty_store_safety.1 _ _ _ _ rfl,
    c5_empty_store_safety.2 _ _ _ _ rfl rfl⟩

/-- Counterexample to C5 as frozen: the first variant search on an empty
store with an uninitialized embedder raises a not-initialized error
instead of returning the empty list. -/
theorem c5_empty_store_counterexample :
    search1 (fun _ => some []) ⟨[], [], false, none⟩ "q" defaultOpts =
      Except.error StoreError.notInitialized ∧
    (Except.error StoreError.notInitialized :
        Except StoreError (List ScoredR)) ≠ Except.ok [] := by
  exact ⟨rfl, by intro h; cases h⟩

/-- C6 (amended): the second variant search triggers initialization itself
on a non-empty store and can never fail with a not-initialized error; the
first variant instead fails with exactly that error whenever its embedder
is uninitialized. -/
theorem c6_search_self_initializes (f : EmbedFn) (st : Store) (q : String)
    (opts : SearchOpts) (hne : st.vectors ≠ []) :
    (search2 f st q opts).1.embedderReady = true ∧
    (search2 f st q opts).2 ≠ Except.error StoreError.notInitialized := by
  by_cases hq : q = ""
  · rw [search2_err f st q opts StoreError.invalidInput hne
      (by rw [embedText2, if_pos rfl, if_pos hq])]
    exact ⟨rfl, by intro h; cases h⟩
  · cases hfq : f q with
    | none =>
        rw [search2_err f st q opts StoreError.providerFailure hne
          (by rw [embedText2, if_pos rfl, if_neg hq, hfq])]
        exact ⟨rfl, by intro h; cases h⟩
    | some qe =>
        rw [search2_ok f st q opts qe hne hq hfq]
        exact ⟨rfl, by intro h; cases h⟩

/-- Witness for C6: a non-empty store whose embedder is not yet
initialized; search initializes it and does not raise not-initialized. -/
theorem c6_search_self_initializes_witness :
    ((⟨[⟨"a", "x", [], some genMeta⟩], [("general", [0])], false,
        none⟩ : Store).vectors ≠ []) ∧
    (search2 (fun _ => some []) ⟨[⟨"a", "x", [], some genMeta⟩],
        [("general", [0])], false, none⟩ "q"
        defaultOpts).1.embedderReady = true ∧
    (search2 (fun _ => some []) ⟨[⟨"a", "x", [], some genMeta⟩],
        [("general", [0])], false, none⟩ "q" defaultOpts).2 ≠
      Except.error StoreError.notInitialized :=
  ⟨by decide,
    (c6_search_self_initializes _ _ _ _ (List.cons_ne_nil _ _)).1,
    (c6_search_self_initializes _ _ _ _ (List.cons_ne_nil _ _)).2⟩

/-- Counterexample to C6 as frozen: the first variant search on a
non-empty store with an uninitialized embedder fails with the
not-initialized error instead of triggering initialization. -/
theorem c6_search_self_initializes_counterexample :
    search1 (fun _ => some []) ⟨[⟨"a", "x", [], some genMeta⟩],
        [("general", [0])], false, none⟩ "q" defaultOpts =
      Except.error StoreError.notInitialized := rfl

/-- C10 (confirmed): clear empties the record collection and the field
index and removes the durable file, but leaves the embedder readiness of
the store untouched, so embedding after clear behaves exactly as before
clear and needs no re-initialization. -/
theorem c10_clear_preserves_embedder (st : Store) :
    (clear st).vectors = [] ∧ (clear st).fieldIndex = [] ∧
    (clear st).dbFile = none ∧
    (clear st).embedderReady = st.embedderReady ∧
    (∀ (f : EmbedFn) (t : String),
      embedText2 f (clear st).embedderReady t =
        embedText2 f st.embedderReady t) ∧
    (∀ (f : EmbedFn) (t : String),
      embedText1 f (clear st).embedderReady t =
        embedText1 f st.embedderReady t) :=
  ⟨rfl, rfl, rfl, rfl, fun _ _ => rfl, fun _ _ => rfl⟩

/-- C2 (amended): if an embedding call fails during buildVectorStore, the
build aborts, the error propagates to the caller, and the persisted file
and the field index are left exactly as before the build; the in-memory
record collection, however, is NOT left as it was: it was reset at the
start of the build and retains only the records embedded before the
failure.  Stated for the second (current) variant; the first variant
resets the collection before its loop in the same way. -/
theorem c2_build_failure_aborts (f : EmbedFn) (st : Store)
    (chunks : List Chunk) (e : StoreError) (hne : chunks ≠ [])
    (herr : (buildLoop f chunks []).2 = some e) :
    (buildVectorStore2 f st chunks).1.dbFile = st.dbFile ∧
    (buildVectorStore2 f st chunks).1.fieldIndex = st.fieldIndex ∧
    (buildVectorStore2 f st chunks).2 = Except.error e ∧
    (buildVectorStore2 f st chunks).1.vectors = (buildLoop f chunks []).1 := by
  have hemp : chunks.isEmpty = false := isEmpty_eq_false_of_ne_nil hne
  have hb : buildLoop f chunks [] = ((buildLoop f chunks []).1, some e) := by
    rw [← herr]
  rw [buildVectorStore2, if_neg (by rw [hemp]; exact Bool.false_ne_true), hb]
  exact ⟨rfl, rfl, rfl, rfl⟩

/-- Witness for C2 at a concrete failing build. -/
theorem c2_build_failure_aborts_witness :
    (([⟨some "c", "x", none, none⟩] : List Chunk) ≠ []) ∧
    (buildLoop (fun _ => none) [⟨some "c", "x", none, none⟩] []).2 =
      some StoreError.providerFailure ∧
    (buildVectorStore2 (fun _ => none)
        ⟨[⟨"p", "old", [], some genMeta⟩], [("general", [0])], true,
          some [⟨"p", "old", [], some genMeta⟩]⟩
        [⟨some "c", "x", none, none⟩]).1.dbFile =
      some [⟨"p", "old", [], some genMeta⟩] ∧
    (buildVectorStore2 (fun _ => none)
        ⟨[⟨"p", "old", [], some genMeta⟩], [("general", [0])], true,
          some [⟨"p", "old", [], some genMeta⟩]⟩
        [⟨some "c", "x", none, none⟩]).2 =
      Except.error StoreError.providerFailure :=
  ⟨by decide, rfl,
    (c2_build_failure_aborts (fun _ => none)
      ⟨[⟨"p", "old", [], some genMeta⟩], [("general", [0])], true,
        some [⟨"p", "old", [], some genMeta⟩]⟩
      [⟨some "c", "x", none, none⟩] StoreError.providerFailure
      (List.cons_ne_nil _ _) rfl).1,
    (c2_build_failure_aborts (fun _ => none)
      ⟨[⟨"p", "old", [], some genMeta⟩], [("general", [0])], true,
        some [⟨"p", "old", [], some genMeta⟩]⟩
      [⟨some "c", "x", none, none⟩] StoreError.providerFailure
      (List.cons_ne_nil _ _) rfl).2.2.1⟩

/-- Counterexample to C2 as frozen: the failed build leaves the in-memory
collection empty, not equal to the prior one-record collection, because
the collection is reset before the embedding loop runs. -/
theorem c2_build_failure_counterexample :
    buildVectorStore2 (fun _ => none)
      ⟨[⟨"p", "old", [], some genMeta⟩], [("general", [0])], true,
        some [⟨"p", "old", [], some genMeta⟩]⟩
      [⟨some "c", "x", none, none⟩] =
      (⟨[], [("general", [0])], true,
        some [⟨"p", "old", [], some genMeta⟩]⟩,
        Except.error StoreError.providerFailure) ∧
    ([] : List Record) ≠ [⟨"p", "old", [], some genMeta⟩] := by
  exact ⟨rfl, by decide⟩

/-- C8 (amended): for every accepted (non-empty) chunk sequence whose
surviving chunks all embed successfully, the second variant build
succeeds and the resulting collection contains exactly the chunks with
non-empty content, in input order, each stored record carrying the chunk
content, the chunk id defaulted to chunk_position, and the chunk
metadata verbatim, defaulted to the EMPTY metadata object when absent
(not to the object with field general, as the claim states; the first
variant instead ignores chunk metadata entirely and stores only the field
key of the chunk or general). -/
theorem c8_build_stores_surviving_chunks (f : EmbedFn) (st : Store)
    (chunks : List Chunk) (hne : chunks ≠ [])
    (hok : ∀ c ∈ chunks, c.content ≠ "" → (f c.content).isSome) :
    (buildVectorStore2 f st chunks).2 = Except.ok () ∧
    (buildVectorStore2 f st chunks).1.vectors =
      (idxFrom 0 (chunks.filter (fun c => !(c.content = "")))).map
        (buildRecordAt f) ∧
    (∀ p : Nat × Chunk, (buildRecordAt f p).content = p.2.content ∧
      (buildRecordAt f p).id = p.2.id.getD ("chunk_" ++ toString p.1) ∧
      (buildRecordAt f p).metadata = some (p.2.metadata.getD emptyMeta)) := by
  have hloop := buildLoop_ok f chunks [] hok
  obtain ⟨fi2, hfi⟩ := buildIndex2_isSome
    ((idxFrom 0 (chunks.filter (fun c => !(c.content = "")))).map
      (buildRecordAt f))
    (fun r hr => by
      obtain ⟨p, hp, rfl⟩ := List.mem_map.1 hr
      rfl)
  have hmain := buildVectorStore2_ok f st chunks _ fi2 hne
    (by rw [hloop]; rfl) hfi
  rw [hmain]
  exact ⟨rfl, rfl, fun p => ⟨rfl, rfl, rfl⟩⟩

/-- Witness for C8 at a concrete two-chunk build with one surviving
chunk. -/
theorem c8_build_stores_surviving_chunks_witness :
    (([⟨none, "hi", none, none⟩, ⟨none, "", none, none⟩] : List Chunk) ≠
      []) ∧
    (∀ c ∈ ([⟨none, "hi", none, none⟩, ⟨none, "", none, none⟩] :
        List Chunk), c.content ≠ "" →
      (((fun _ => some []) : EmbedFn) c.content).isSome) ∧
    (buildVectorStore2 (fun _ => some []) ⟨[], [], false, none⟩
        [⟨none, "hi", none, none⟩, ⟨none, "", none, none⟩]).2 =
      Except.ok () ∧
    (buildVectorStore2 (fun _ => some []) ⟨[], [], false, none⟩
        [⟨none, "hi", none, none⟩, ⟨none, "", none, none⟩]).1.vectors =
      (idxFrom 0 (([⟨none, "hi", none, none⟩, ⟨none, "", none, none⟩] :
          List Chunk).filter (fun c => !(c.content = "")))).map
        (buildRecordAt (fun _ => some [])) :=
  ⟨by decide, by decide,
    (c8_build_stores_surviving_chunks _ _ _ (List.cons_ne_nil _ _)
      (by decide)).1,
    (c8_build_stores_surviving_chunks _ _ _ (List.cons_ne_nil _ _)
      (by decide)).2.1⟩

/-- Counterexample to C8 as frozen: a chunk without metadata is stored
with the empty metadata object, which differs from the object with field
general that the claim prescribes. -/
theorem c8_metadata_default_counterexample :
    (buildVectorStore2 (fun _ => some []) ⟨[], [], false, none⟩
        [⟨none, "hi", none, none⟩]).1.vectors =
      [⟨"chunk_0", "hi", [], some emptyMeta⟩] ∧
    ((⟨"chunk_0", "hi", [], some emptyMeta⟩ : Record).metadata ≠
      some genMeta) := by
  exact ⟨rfl, by decide⟩

/-- C4 (amended): for the second (current) variant, after buildVectorStore,
loadFromDisk and clear complete successfully, the field index is
consistent with the record collection: the index builder yields, for
every field name f, exactly the ordered positions of the records whose
metadata field (defaulting to general) equals f, and no other keys exist
(lookup of any other name yields none).  The first variant index builder
applies no general default: a record whose metadata lacks the field key
is grouped under the JavaScript coercion key undefined instead, so the
claim as frozen fails on it (see the counterexample). -/
theorem c4_field_index_consistent :
    (∀ (vecs : List Record) (g : String),
        (∀ r ∈ vecs, r.metadata.isSome) →
        (buildIndex2 vecs).map (fun fi => lookupIdx fi g) =
          some (if specPositions vecs g = [] then none
            else some (specPositions vecs g))) ∧
    (∀ (f : EmbedFn) (st : Store) (chunks : List Chunk) (st2 : Store),
        buildVectorStore2 f st chunks = (st2, Except.ok ()) →
        buildIndex2 st2.vectors = some st2.fieldIndex) ∧
    (∀ st st2 : Store, loadFromDisk2 st = (st2, Except.ok true) →
        buildIndex2 st2.vectors = some st2.fieldIndex) ∧
    (∀ st : Store, (clear st).fieldIndex = [] ∧
        buildIndex2 (clear st).vectors = some []) := by
  refine ⟨fun vecs g h => buildIndex2_lookup vecs h g, ?_, ?_,
    fun st => ⟨rfl, rfl⟩⟩
  · intro f st chunks st2 h
    rw [buildVectorStore2] at h
    split at h
    · exact absurd (congrArg Prod.snd h) (by simp)
    · split at h
      · exact absurd (congrArg Prod.snd h) (by simp)
      · split at h
        · exact absurd (congrArg Prod.snd h) (by simp)
        · rename_i vecs hnone idx heq
          injection h with h1 h2
          rw [← h1]
          exact heq
  · intro st st2 h
    rw [loadFromDisk2] at h
    split at h
    · exact absurd (congrArg Prod.snd h) (by simp)
    · split at h
      · exact absurd (congrArg Prod.snd h) (by simp)
      · rename_i data idx heq
        injection h with h1 h2
        rw [← h1]
        exact heq

/-- Witness for C4: the index characterization at a concrete collection
and the clear part at a concrete store. -/
theorem c4_field_index_consistent_witness :
    (∀ r ∈ ([⟨"a", "x", [], some genMeta⟩] : List Record),
      r.metadata.isSome) ∧
    (buildIndex2 [⟨"a", "x", [], some genMeta⟩]).map
        (fun fi => lookupIdx fi "general") =
      some (if specPositions [⟨"a", "x", [], some genMeta⟩] "general" = []
        then none
        else some (specPositions [⟨"a", "x", [], some genMeta⟩]
          "general")) ∧
    (clear ⟨[⟨"a", "x", [], some genMeta⟩], [("general", [0])], true,
      none⟩).fieldIndex = [] :=
  ⟨by decide,
    c4_field_index_consistent.1 [⟨"a", "x", [], some genMeta⟩] "general"
      (by decide),
    (c4_field_index_consistent.2.2.2
      ⟨[⟨"a", "x", [], some genMeta⟩], [("general", [0])], true, none⟩).1⟩

/-- Counterexample to C4 as frozen: in the first variant, loading a file
whose record carries a metadata object without the field key completes
successfully, yet the field index files the record under the literal key
undefined: the lookup of general yields none although the record
specification field name defaults to general (its position list is 0). -/
theorem c4_field_index_counterexample :
    (loadFromDisk1 ⟨[], [], true,
        some [⟨"a", "x", [], some ⟨none, []⟩⟩]⟩).2 = Except.ok true ∧
    (loadFromDisk1 ⟨[], [], true,
        some [⟨"a", "x", [], some ⟨none, []⟩⟩]⟩).1.fieldIndex =
      [("undefined", [0])] ∧
    lookupIdx (loadFromDisk1 ⟨[], [], true,
        some [⟨"a", "x", [], some ⟨none, []⟩⟩]⟩).1.fieldIndex "general" =
      none ∧
    specPositions (loadFromDisk1 ⟨[], [], true,
        some [⟨"a", "x", [], some ⟨none, []⟩⟩]⟩).1.vectors "general" =
      [0] := ⟨rfl, rfl, rfl, rfl⟩

/-- C7 (amended): saving a non-empty record collection and loading it back
with the first variant load succeeds and yields the collection mapped
through the legacy normalization, which is the identity on every record
that carries a metadata object and turns an absent metadata object into
the object with field general exactly as the claim states; hence content
and order round-trip.  The second variant load performs no such
normalization (see the counterexample). -/
theorem c7_save_load_roundtrip (st : Store) (hne : st.vectors ≠ []) :
    (loadFromDisk1 (saveToDisk st)).2 = Except.ok true ∧
    (loadFromDisk1 (saveToDisk st)).1.vectors =
      st.vectors.map normalizeRecord ∧
    (∀ r : Record, r.metadata.isSome → normalizeRecord r = r) ∧
    (∀ r : Record, r.metadata = none →
      normalizeRecord r = { r with metadata := some genMeta }) := by
  obtain ⟨fi2, hfi⟩ := buildIndex1_isSome (st.vectors.map normalizeRecord)
    (fun r hr => by
      obtain ⟨r0, hr0, rfl⟩ := List.mem_map.1 hr
      rfl)
  have hmain : loadFromDisk1 (saveToDisk st) =
      ((⟨st.vectors.map normalizeRecord, fi2, st.embedderReady,
          some st.vectors⟩ : Store), Except.ok true) := by
    rw [loadFromDisk1,
      show (saveToDisk st).dbFile = some st.vectors from rfl]
    show (if st.vectors.isEmpty then (saveToDisk st, Except.ok false)
      else
        match buildIndex1 (st.vectors.map normalizeRecord) with
        | none => ((⟨st.vectors.map normalizeRecord,
            st.fieldIndex, st.embedderReady, some st.vectors⟩ : Store),
            Except.error StoreError.typeError)
        | some idx => ((⟨st.vectors.map normalizeRecord, idx,
            st.embedderReady, some st.vectors⟩ : Store),
            Except.ok true)) = _
    have hemp : st.vectors.isEmpty = false := isEmpty_eq_false_of_ne_nil hne
    rw [if_neg (by rw [hemp]; exact Bool.false_ne_true), hfi]
  refine ⟨by rw [hmain], by rw [hmain], ?_, ?_⟩
  · intro r hsome
    obtain ⟨m, hm⟩ := Option.isSome_iff_exists.1 hsome
    cases r with
    | mk i c e md =>
        have hm2 : md = some m := hm
        subst hm2
        simp [normalizeRecord]
  · intro r hr
    cases r with
    | mk i c e md =>
        have hm2 : md = none := hr
        subst hm2
        simp [normalizeRecord]

/-- Witness for C7 at a concrete one-record store. -/
theorem c7_save_load_roundtrip_witness :
    ((⟨[⟨"a", "x", [], some genMeta⟩], [("general", [0])], true,
        none⟩ : Store).vectors ≠ []) ∧
    (loadFromDisk1 (saveToDisk ⟨[⟨"a", "x", [], some genMeta⟩],
        [("general", [0])], true, none⟩)).2 = Except.ok true ∧
    (loadFromDisk1 (saveToDisk ⟨[⟨"a", "x", [], some genMeta⟩],
        [("general", [0])], true, none⟩)).1.vectors =
      ([⟨"a", "x", [], some genMeta⟩] : List Record).map normalizeRecord :=
  ⟨by decide,
    (c7_save_load_roundtrip ⟨[⟨"a", "x", [], some genMeta⟩],
      [("general", [0])], true, none⟩ (List.cons_ne_nil _ _)).1,
    (c7_save_load_roundtrip ⟨[⟨"a", "x", [], some genMeta⟩],
      [("general", [0])], true, none⟩ (List.cons_ne_nil _ _)).2.1⟩

/-- Counterexample to C7 as frozen: the second variant load of a file with
a legacy record lacking metadata replaces the collection with the record
verbatim, NOT normalized to the metadata object with field general; its
index rebuild then throws a type error. -/
theorem c7_no_normalization_counterexample :
    (loadFromDisk2 ⟨[], [], true, some [⟨"a", "x", [], none⟩]⟩).1.vectors =
      [⟨"a", "x", [], none⟩] ∧
    ((⟨"a", "x", [], none⟩ : Record).metadata ≠ some genMeta) ∧
    (loadFromDisk2 ⟨[], [], true, some [⟨"a", "x", [], none⟩]⟩).2 =
      Except.error StoreError.typeError :=
  ⟨rfl, by decide, rfl⟩

/-- C9 (amended): the first variant cosineSimilarity is total over every
pair of equal-length vectors: when either vector has zero L2 norm the
computed similarity is 0 rather than a division by zero (the zero
denominator is replaced by 1 and the dot product is itself 0), and
otherwise it equals the dot product divided by the product of the two L2
norms.  The second variant scores by the raw dot product instead, for
which the claim fails (see the counterexample). -/
theorem c9_cosine_similarity_total (a b : List ℚ)
    (hlen : a.length = b.length) :
    ((Real.sqrt (na1 a) = 0 ∨ Real.sqrt (na1 b) = 0) →
      cosineSimilarity1 a b = 0) ∧
    (Real.sqrt (na1 a) ≠ 0 → Real.sqrt (na1 b) ≠ 0 →
      cosineSimilarity1 a b =
        ((dot1 a b : ℚ) : ℝ) /
          (Real.sqrt (na1 a) * Real.sqrt (na1 b))) := by
  constructor
  · intro h
    have hz : na1 a = 0 ∨ na1 b = 0 := by
      rcases h with h | h
      · left
        have h0 : ((na1 a : ℚ) : ℝ) ≤ 0 := Real.sqrt_eq_zero'.1 h
        have h1 : ((0 : ℚ) : ℝ) ≤ ((na1 a : ℚ) : ℝ) := by
          exact_mod_cast na1_nonneg a
        exact_mod_cast le_antisymm h0 (by exact_mod_cast h1)
      · right
        have h0 : ((na1 b : ℚ) : ℝ) ≤ 0 := Real.sqrt_eq_zero'.1 h
        have h1 : ((0 : ℚ) : ℝ) ≤ ((na1 b : ℚ) : ℝ) := by
          exact_mod_cast na1_nonneg b
        exact_mod_cast le_antisymm h0 (by exact_mod_cast h1)
    have hdot : dot1 a b = 0 := by
      rcases hz with hz | hz
      · exact dot1_eq_zero_left hz
      · exact dot1_eq_zero_right hz
    have hden : (Real.sqrt (na1 a) * Real.sqrt (nb1 a b) : ℝ) = 0 := by
      rw [nb1_eq_na1 hlen]
      rcases hz with hz | hz
      · rw [hz]
        simp
      · rw [hz]
        simp
    rw [cosineSimilarity1, if_pos hden, hdot]
    simp
  · intro ha hb
    have hden : (Real.sqrt (na1 a) * Real.sqrt (nb1 a b) : ℝ) ≠ 0 := by
      rw [nb1_eq_na1 hlen]
      exact mul_ne_zero ha hb
    rw [cosineSimilarity1, if_neg hden, nb1_eq_na1 hlen]

/-- Witness for C9: the zero-norm case at the vector pair [0] and [3], and
the positive case at [1] and [1]. -/
theorem c9_cosine_similarity_total_witness :
    (([(0:ℚ)] : List ℚ).length = ([(3:ℚ)] : List ℚ).length) ∧
    cosineSimilarity1 [(0:ℚ)] [(3:ℚ)] = 0 ∧
    cosineSimilarity1 [(1:ℚ)] [(1:ℚ)] =
      ((dot1 [(1:ℚ)] [(1:ℚ)] : ℚ) : ℝ) /
        (Real.sqrt (na1 [(1:ℚ)]) * Real.sqrt (na1 [(1:ℚ)])) := by
  have h0 : na1 [(0:ℚ)] = 0 := by
    norm_num [na1, show List.range 1 = [0] from by decide, List.map_cons,
      List.map_nil, List.sum_cons, List.sum_nil, List.getD_cons_zero]
  have h1 : na1 [(1:ℚ)] = 1 := by
    norm_num [na1, show List.range 1 = [0] from by decide, List.map_cons,
      List.map_nil, List.sum_cons, List.sum_nil, List.getD_cons_zero]
  refine ⟨rfl, ?_, ?_⟩
  · exact (c9_cosine_similarity_total [(0:ℚ)] [(3:ℚ)] rfl).1
      (Or.inl (by rw [h0]; simp))
  · exact (c9_cosine_similarity_total [(1:ℚ)] [(1:ℚ)] rfl).2
      (by rw [h1]; simp) (by rw [h1]; simp)

/-- Counterexample to C9 as frozen: the second variant similarity of the
384-dimension vector with first coordinate 2 against itself is the raw
dot product 4, not the normalized value 1 that the claim formula (dot
divided by the product of the L2 norms) yields. -/
theorem c9_raw_dot_counterexample :
    cosineSimilarity2 ((2:ℚ) :: List.replicate 383 0)
      ((2:ℚ) :: List.replicate 383 0) = 4 ∧
    ((4 : ℝ) ≠
      ((dot1 ((2:ℚ) :: List.replicate 383 0)
          ((2:ℚ) :: List.replicate 383 0) : ℚ) : ℝ) /
        (Real.sqrt (na1 ((2:ℚ) :: List.replicate 383 0)) *
          Real.sqrt (na1 ((2:ℚ) :: List.replicate 383 0)))) := by
  have hsingle : ∀ x y : ℚ,
      (((List.range (383 + 1)).map
        (fun i => (x :: List.replicate 383 (0:ℚ)).getD i 0 *
          (y :: List.replicate 383 (0:ℚ)).getD i 0)).sum) = x * y := by
    intro x y
    have h := cosineSimilarity2_single x y
    rwa [cosineSimilarity2, show EMBEDDING_DIM = 383 + 1 from rfl] at h
  have hdot : dot1 ((2:ℚ) :: List.replicate 383 0)
      ((2:ℚ) :: List.replicate 383 0) = 4 := by
    rw [dot1, show ((2:ℚ) :: List.replicate 383 0).length = 383 + 1 from by
      simp only [List.length_cons, List.length_replicate]]
    rw [hsingle 2 2]
    norm_num
  have hna : na1 ((2:ℚ) :: List.replicate 383 0) = 4 := by
    rw [na1, show ((2:ℚ) :: List.replicate 383 0).length = 383 + 1 from by
      simp only [List.length_cons, List.length_replicate]]
    rw [hsingle 2 2]
    norm_num
  constructor
  · rw [cosineSimilarity2_single]
    norm_num
  · rw [hdot, hna]
    have hs : Real.sqrt ((4:ℚ) : ℝ) = 2 := by
      rw [show ((4:ℚ) : ℝ) = (2:ℝ)^2 from by norm_num,
        Real.sqrt_sq (by norm_num)]
    rw [hs]
    norm_num
